import Mathlib

/- Verification development for the gradient-descent driver of
   src/unconstrained/gd.cpp (OptimLib).  Real numbers model the double
   type; a list of reals models Vec_t.  Non-finite double values
   (infinities, NaN) are modelled by the none case of an Option. -/

open scoped Classical

namespace Optim

/-- Floating values: some r is a finite value, none is a non-finite value. -/
abbrev FP := Option ℝ

/-- Working vectors of finite values (Vec_t inside the computation). -/
abbrev Vec := List ℝ

/-- Finiteness check over a caller vector (BMO_MATOPS_IS_FINITE). -/
def allFinite (l : List FP) : Bool := l.all fun v => v.isSome

/-- Reads the finite values out of a caller vector. -/
def extractFinite (l : List FP) : Vec := l.map fun v => v.getD 0

/-- Elementwise subtraction of vectors. -/
def vsub (a b : Vec) : Vec := List.zipWith (fun x y => x - y) a b

/-- Elementwise (Hadamard) product of vectors (BMO_MATOPS_HADAMARD_PROD). -/
def hadamard (a b : Vec) : Vec := List.zipWith (fun x y => x * y) a b

/-- Euclidean norm of a vector (BMO_MATOPS_L2NORM). -/
noncomputable def l2norm (v : Vec) : ℝ := Real.sqrt (v.map fun a => a ^ 2).sum

/-- Sum of absolute values of a vector (BMO_MATOPS_L1NORM). -/
def l1norm (v : Vec) : ℝ := (v.map fun a => |a|).sum

/-- Largest absolute entry of a vector, 0 for the empty vector. -/
def linfnorm (v : Vec) : ℝ := (v.map fun a => |a|).foldr max 0

/-- Zero vector of a given length (BMO_MATOPS_ZERO_VEC). -/
def zeroVec (n : ℕ) : Vec := List.replicate n (0 : ℝ)

/-- Per-coordinate bound classification of the Bounds Transformer. -/
inductive BoundKind where
  | unbounded
  | lowerOnly
  | upperOnly
  | both
deriving DecidableEq

/-- Modelled from the spec: determine_bounds_type is not among the given
sources; per the spec the classification of one coordinate is derived from
which of its two bounds are (finite) present. -/
def boundKindOf (lb ub : FP) : BoundKind :=
  match lb, ub with
  | some _, some _ => BoundKind.both
  | some _, none => BoundKind.lowerOnly
  | none, some _ => BoundKind.upperOnly
  | none, none => BoundKind.unbounded

/-- Modelled from the spec: determine_bounds_type over whole vectors; with
bounds inactive every coordinate is classified unbounded. -/
def determine_bounds_type (vals_bound : Bool) (n : ℕ) (lb ub : List FP) :
    List BoundKind :=
  if vals_bound then List.zipWith boundKindOf lb ub
  else List.replicate n BoundKind.unbounded

/-- Modelled from the spec: the transform of the Bounds Transformer is not
among the given sources; per the spec it is, per coordinate, the identity for
an unbounded coordinate and otherwise a smooth strictly monotone bijection
from the valid interval onto the whole real line.  A standard logarithmic
formulation is chosen. -/
noncomputable def transform_coord (k : BoundKind) (lb ub x : ℝ) : ℝ :=
  match k with
  | BoundKind.unbounded => x
  | BoundKind.lowerOnly => Real.log (x - lb)
  | BoundKind.upperOnly => -Real.log (ub - x)
  | BoundKind.both => Real.log (x - lb) - Real.log (ub - x)

/-- Modelled from the spec: the exact inverse of transform_coord, mapping the
whole real line back into the valid interval. -/
noncomputable def inv_transform_coord (k : BoundKind) (lb ub y : ℝ) : ℝ :=
  match k with
  | BoundKind.unbounded => y
  | BoundKind.lowerOnly => lb + Real.exp y
  | BoundKind.upperOnly => ub - Real.exp (-y)
  | BoundKind.both => (lb + ub * Real.exp y) / (1 + Real.exp y)

/-- Modelled from the spec: elementwise derivative of the working-to-bounded
map, the Jacobian diagonal used for the chain-rule gradient correction. -/
noncomputable def jacobian_coord (k : BoundKind) (lb ub y : ℝ) : ℝ :=
  match k with
  | BoundKind.unbounded => 1
  | BoundKind.lowerOnly => Real.exp y
  | BoundKind.upperOnly => Real.exp (-y)
  | BoundKind.both => (ub - lb) * Real.exp y / (1 + Real.exp y) ^ 2

/-- Modelled from the spec: vector transform, coordinate by coordinate. -/
noncomputable def transform : Vec → List BoundKind → List FP → List FP → Vec
  | x :: xs, k :: ks, l :: ls, u :: us =>
      transform_coord k (l.getD 0) (u.getD 0) x :: transform xs ks ls us
  | _, _, _, _ => []

/-- Modelled from the spec: vector inverse transform, coordinate by
coordinate. -/
noncomputable def inv_transform : Vec → List BoundKind → List FP → List FP → Vec
  | y :: ys, k :: ks, l :: ls, u :: us =>
      inv_transform_coord k (l.getD 0) (u.getD 0) y :: inv_transform ys ks ls us
  | _, _, _, _ => []

/-- Modelled from the spec: vector Jacobian diagonal (jacobian_adjust followed
by diagonal extraction), coordinate by coordinate. -/
noncomputable def jacobian_diag : Vec → List BoundKind → List FP → List FP → Vec
  | y :: ys, k :: ks, l :: ls, u :: us =>
      jacobian_coord k (l.getD 0) (u.getD 0) y :: jacobian_diag ys ks ls us
  | _, _, _, _ => []

/-- Gradient clip type: a bound on the overall norm, or a per-coordinate
cap.  Modelled from the spec (clip type of the clipping policy). -/
inductive ClipType where
  | overallNorm
  | coordMax
deriving DecidableEq

/-- Settings consumed by the gradient-descent engine (gd_settings_t): the
update-rule method code and the gradient-clipping policy.  Hyperparameters of
the update-rule variants are opaque to the driver and are carried by the
update rule itself. -/
structure gd_settings_t where
  method : ℕ
  clip_grad : Bool
  clip_type : ClipType
  clip_bound : ℝ

/-- Configured magnitude measure the clipping policy bounds. -/
noncomputable def clip_measure (ct : ClipType) (g : Vec) : ℝ :=
  match ct with
  | ClipType.overallNorm => l2norm g
  | ClipType.coordMax => linfnorm g

/-- Modelled from the spec: gradient_clipping is not among the given sources;
per the spec it rescales or caps the vector so that the configured magnitude
measure does not exceed the threshold. -/
noncomputable def gradient_clipping (g : Vec) (gs : gd_settings_t) : Vec :=
  match gs.clip_type with
  | ClipType.overallNorm =>
      if gs.clip_bound < l2norm g then
        g.map fun a => a * (gs.clip_bound / l2norm g)
      else g
  | ClipType.coordMax =>
      g.map fun a => max (-gs.clip_bound) (min gs.clip_bound a)

/-- Algorithm settings read by the driver (algo_settings_t).  The print
level only controls tracing and is omitted: per the spec the trace sink must
not affect algorithm behavior. -/
structure algo_settings_t where
  conv_failure_switch : ℕ
  iter_max : ℕ
  grad_err_tol : ℝ
  rel_sol_change_tol : ℝ
  vals_bound : Bool
  lower_bounds : List FP
  upper_bounds : List FP
  gd_settings : gd_settings_t

/-- Objective Adapter (the box_objfn lambda): with bounds inactive it
delegates to the caller objective unchanged; with bounds active it evaluates
the caller objective at the inverse-transformed input and, when a gradient is
requested, replaces the returned gradient by its Hadamard product with the
Jacobian diagonal at the working-space input.  The Boolean argument models
whether the gradient output slot is present; the Option result carries the
gradient written back through that slot. -/
noncomputable def box_objfn (opt_objfn : Vec → ℝ × Vec) (vals_bound : Bool)
    (bounds_type : List BoundKind) (lower_bounds upper_bounds : List FP)
    (vals_inp : Vec) (grad_out : Bool) : ℝ × Option Vec :=
  if vals_bound then
    let vals_inv_trans := inv_transform vals_inp bounds_type lower_bounds upper_bounds
    if grad_out then
      let r := opt_objfn vals_inv_trans
      (r.1, some (hadamard (jacobian_diag vals_inp bounds_type lower_bounds upper_bounds) r.2))
    else
      ((opt_objfn vals_inv_trans).1, none)
  else
    let r := opt_objfn vals_inp
    (r.1, if grad_out then some r.2 else none)

/-- Shape of the boxed objective the driver threads through the run. -/
abbrev BoxFn := Vec → Bool → ℝ × Option Vec

/-- Shape of the update rule (gd_update): from the boxed objective, the
current position, the gradients before and after the last step, the previous
step, the iteration number, the engine settings and the two adaptive
accumulators it produces the next step and the updated accumulators.  The
update rule is external to the given sources, so the driver is parametric in
it. -/
abbrev UpdateFn :=
  BoxFn → Vec → Vec → Vec → Vec → ℕ → gd_settings_t → Vec → Vec → Vec × Vec × Vec

/-- Mutable state carried across driver-loop iterations. -/
structure LoopState where
  x : Vec
  d : Vec
  grad : Vec
  grad_p : Vec
  grad_err : ℝ
  rel_sol_change : ℝ
  iter : ℕ
  adam_vec_m : Vec
  adam_vec_v : Vec

/-- Result of calling the update rule for the next iteration. -/
noncomputable def gd_step_upd (boxfn : BoxFn) (upd : UpdateFn)
    (gs : gd_settings_t) (s : LoopState) : Vec × Vec × Vec :=
  upd boxfn s.x s.grad s.grad_p s.d (s.iter + 1) gs s.adam_vec_m s.adam_vec_v

/-- Trial point of the next iteration: the step is subtracted from x. -/
noncomputable def gd_step_xp (boxfn : BoxFn) (upd : UpdateFn)
    (gs : gd_settings_t) (s : LoopState) : Vec :=
  vsub s.x (gd_step_upd boxfn upd gs s).1

/-- Gradient the boxed objective returns at the trial point, before any
clipping. -/
noncomputable def gd_step_raw_grad (boxfn : BoxFn) (upd : UpdateFn)
    (gs : gd_settings_t) (s : LoopState) : Vec :=
  ((boxfn (gd_step_xp boxfn upd gs s) true).2).getD
    (zeroVec (gd_step_xp boxfn upd gs s).length)

/-- Body of the driver loop: one iteration of gd_basic_impl. -/
noncomputable def gd_step (boxfn : BoxFn) (upd : UpdateFn)
    (gs : gd_settings_t) (s : LoopState) : LoopState :=
  let x_p := gd_step_xp boxfn upd gs s
  let grad_p :=
    if gs.clip_grad then gradient_clipping (gd_step_raw_grad boxfn upd gs s) gs
    else gd_step_raw_grad boxfn upd gs s
  { x := x_p
    d := (gd_step_upd boxfn upd gs s).1
    grad := s.grad_p
    grad_p := grad_p
    grad_err := l2norm grad_p
    rel_sol_change :=
      l1norm (List.zipWith (fun dx xo => dx / (|xo| + 1.0e-8)) (vsub x_p s.x) s.x)
    iter := s.iter + 1
    adam_vec_m := (gd_step_upd boxfn upd gs s).2.1
    adam_vec_v := (gd_step_upd boxfn upd gs s).2.2 }

/-- Continuation condition of the driver loop, read off the while head. -/
def loop_guard (gtol rtol : ℝ) (iter_max : ℕ) (s : LoopState) : Prop :=
  gtol < s.grad_err ∧ rtol < s.rel_sol_change ∧ s.iter < iter_max

/-- Driver loop: repeat the body while the guard holds.  The fuel argument
bounds the recursion; because each body run increments iter and the guard
requires iter < iter_max, fuel iter_max makes this the exact while loop. -/
noncomputable def gd_loop (gtol rtol : ℝ) (iter_max : ℕ)
    (step : LoopState → LoopState) : ℕ → LoopState → LoopState
  | 0, s => s
  | fuel + 1, s =>
      if loop_guard gtol rtol iter_max s then
        gd_loop gtol rtol iter_max step fuel (step s)
      else s

/-- Initial allocation of the first-moment accumulator (lines 116-119 of
gd.cpp): a zero vector for method codes 5, 6, 7, otherwise left empty. -/
def init_adam_vec_m (method n : ℕ) : Vec :=
  if method = 5 ∨ method = 6 ∨ method = 7 then zeroVec n else []

/-- Initial allocation of the second-moment accumulator (lines 112-119 of
gd.cpp): a zero vector for method codes 3, 4 and 5, 6, 7, otherwise left
empty. -/
def init_adam_vec_v (method n : ℕ) : Vec :=
  if method = 3 ∨ method = 4 ∨ method = 5 ∨ method = 6 ∨ method = 7 then zeroVec n
  else []

/-- Bound classification the driver derives for a run. -/
def gd_bounds_type (init : List FP) (settings : algo_settings_t) :
    List BoundKind :=
  determine_bounds_type settings.vals_bound init.length settings.lower_bounds
    settings.upper_bounds

/-- Boxed objective the driver builds for a run. -/
noncomputable def gd_boxfn (init : List FP) (objfn : Vec → ℝ × Vec)
    (settings : algo_settings_t) : BoxFn :=
  box_objfn objfn settings.vals_bound (gd_bounds_type init settings)
    settings.lower_bounds settings.upper_bounds

/-- Starting point of a run in working space: the initial values, transformed
when bounds are active. -/
noncomputable def gd_init_x (init : List FP) (settings : algo_settings_t) : Vec :=
  if settings.vals_bound then
    transform (extractFinite init) (gd_bounds_type init settings)
      settings.lower_bounds settings.upper_bounds
  else extractFinite init

/-- Gradient obtained by the single pre-loop evaluation of the boxed
objective at the working-space starting point. -/
noncomputable def gd_initial_grad (init : List FP) (objfn : Vec → ℝ × Vec)
    (settings : algo_settings_t) : Vec :=
  ((gd_boxfn init objfn settings) (gd_init_x init settings) true).2.getD
    (zeroVec init.length)

/-- State the driver loop starts from. -/
noncomputable def gd_init_state (init : List FP) (objfn : Vec → ℝ × Vec)
    (settings : algo_settings_t) : LoopState :=
  { x := gd_init_x init settings
    d := zeroVec init.length
    grad := gd_initial_grad init objfn settings
    grad_p := gd_initial_grad init objfn settings
    grad_err := l2norm (gd_initial_grad init objfn settings)
    rel_sol_change := 1.0
    iter := 0
    adam_vec_m := init_adam_vec_m settings.gd_settings.method init.length
    adam_vec_v := init_adam_vec_v settings.gd_settings.method init.length }

/-- State the driver loop ends in. -/
noncomputable def gd_final_state (init : List FP) (objfn : Vec → ℝ × Vec)
    (upd : UpdateFn) (settings : algo_settings_t) : LoopState :=
  gd_loop settings.grad_err_tol settings.rel_sol_change_tol settings.iter_max
    (gd_step (gd_boxfn init objfn settings) upd settings.gd_settings)
    settings.iter_max (gd_init_state init objfn settings)

/-- Final point of a run in caller space: the loop result, inverse
transformed when bounds are active. -/
noncomputable def gd_final_x (init : List FP) (objfn : Vec → ℝ × Vec)
    (upd : UpdateFn) (settings : algo_settings_t) : Vec :=
  if settings.vals_bound then
    inv_transform (gd_final_state init objfn upd settings).x
      (gd_bounds_type init settings) settings.lower_bounds settings.upper_bounds
  else (gd_final_state init objfn upd settings).x

/-- Modelled from the spec: error_reporting is not among the given sources;
per the spec it decides overall success from the convergence status and
produces the final position for the caller.  The iteration data and the
convergence-failure policy only shape diagnostics and the failure surface. -/
noncomputable def error_reporting (x_final : Vec) (grad_err grad_err_tol : ℝ)
    (_iter _iter_max : ℕ) (_conv_failure_switch : ℕ) : Bool × List FP :=
  (if grad_err ≤ grad_err_tol then true else false, x_final.map some)

/-- Observable outcome of one run of gd_basic_impl: the returned success
flag, the final content of the caller vector, the number of loop iterations
run, and the number of objective evaluations the driver itself issued. -/
structure GDResult where
  success : Bool
  out : List FP
  iters : ℕ
  obj_evals : ℕ

/-- Driver gd_basic_impl: validate finiteness, transform, evaluate the
initial gradient, return early on immediate convergence, otherwise run the
loop, inverse transform and delegate to error_reporting. -/
noncomputable def gd_basic_impl (init_out_vals : List FP)
    (opt_objfn : Vec → ℝ × Vec) (upd : UpdateFn)
    (settings : algo_settings_t) : GDResult :=
  if allFinite init_out_vals = false then
    { success := false, out := init_out_vals, iters := 0, obj_evals := 0 }
  else if l2norm (gd_initial_grad init_out_vals opt_objfn settings) ≤
      settings.grad_err_tol then
    { success := true, out := init_out_vals, iters := 0, obj_evals := 1 }
  else
    { success :=
        (error_reporting (gd_final_x init_out_vals opt_objfn upd settings)
          (gd_final_state init_out_vals opt_objfn upd settings).grad_err
          settings.grad_err_tol
          (gd_final_state init_out_vals opt_objfn upd settings).iter
          settings.iter_max settings.conv_failure_switch).1
      out :=
        (error_reporting (gd_final_x init_out_vals opt_objfn upd settings)
          (gd_final_state init_out_vals opt_objfn upd settings).grad_err
          settings.grad_err_tol
          (gd_final_state init_out_vals opt_objfn upd settings).iter
          settings.iter_max settings.conv_failure_switch).2
      iters := (gd_final_state init_out_vals opt_objfn upd settings).iter
      obj_evals := 1 + (gd_final_state init_out_vals opt_objfn upd settings).iter }

/-- Example objective with value zero and zero gradient, for exercising the
theorems on concrete inputs. -/
def exObjZ : Vec → ℝ × Vec := fun v => (0, v.map fun _ => (0 : ℝ))

/-- Example objective with value zero and constant gradient two. -/
def exObjT : Vec → ℝ × Vec := fun v => (0, v.map fun _ => (2 : ℝ))

/-- Example update rule that repeats the previous step and leaves the
accumulators alone. -/
def exUpd : UpdateFn := fun _ _ _ _ d _ _ m v => (d, m, v)

/-- Example engine settings with clipping disabled. -/
def exGs : gd_settings_t :=
  { method := 0, clip_grad := false, clip_type := ClipType.coordMax,
    clip_bound := 1 }

/-- Example engine settings with per-coordinate clipping enabled. -/
def exGsClip : gd_settings_t :=
  { method := 0, clip_grad := true, clip_type := ClipType.coordMax,
    clip_bound := 1 }

/-- Example driver settings: bounds inactive, tolerance one. -/
def exSettings : algo_settings_t :=
  { conv_failure_switch := 0, iter_max := 5, grad_err_tol := 1,
    rel_sol_change_tol := 0, vals_bound := false, lower_bounds := [],
    upper_bounds := [], gd_settings := exGs }

/-- Example boxed objective with bounds inactive. -/
noncomputable def exBox : BoxFn := box_objfn exObjZ false [] [] []

/-- Example loop state with unit gradient norm. -/
def exState : LoopState :=
  { x := [0], d := [0], grad := [1], grad_p := [1], grad_err := 1,
    rel_sol_change := 1, iter := 0, adam_vec_m := [], adam_vec_v := [] }

/-- Strict interiority of one coordinate value for its bound classification. -/
def in_bounds_coord (k : BoundKind) (lb ub x : ℝ) : Prop :=
  match k with
  | BoundKind.unbounded => True
  | BoundKind.lowerOnly => lb < x
  | BoundKind.upperOnly => x < ub
  | BoundKind.both => lb < x ∧ x < ub

/-- Strict interiority of a whole vector, requiring matching shapes. -/
def InBounds : Vec → List BoundKind → List FP → List FP → Prop
  | [], [], [], [] => True
  | x :: xs, k :: ks, l :: ls, u :: us =>
      in_bounds_coord k (l.getD 0) (u.getD 0) x ∧ InBounds xs ks ls us
  | _, _, _, _ => False

end Optim

namespace Optim

theorem transform_coord_roundtrip (k : BoundKind) (lb ub x : ℝ)
    (h : in_bounds_coord k lb ub x) :
    inv_transform_coord k lb ub (transform_coord k lb ub x) = x := by
  cases k with
  | unbounded => rfl
  | lowerOnly =>
      have hx : (0 : ℝ) < x - lb := by
        simp only [in_bounds_coord] at h; linarith
      simp only [transform_coord, inv_transform_coord, Real.exp_log hx]
      ring
  | upperOnly =>
      have hx : (0 : ℝ) < ub - x := by
        simp only [in_bounds_coord] at h; linarith
      simp only [transform_coord, inv_transform_coord, neg_neg, Real.exp_log hx]
      ring
  | both =>
      obtain ⟨h1, h2⟩ := h
      have hxl : (0 : ℝ) < x - lb := by linarith
      have hux : (0 : ℝ) < ub - x := by linarith
      simp only [transform_coord, inv_transform_coord, Real.exp_sub,
        Real.exp_log hxl, Real.exp_log hux]
      have hne : ub - x ≠ 0 := ne_of_gt hux
      have hpos : (0 : ℝ) < 1 + (x - lb) / (ub - x) := by
        have := div_pos hxl hux
        linarith
      have hne2 : (1 : ℝ) + (x - lb) / (ub - x) ≠ 0 := ne_of_gt hpos
      have hne3 : ub - lb ≠ 0 := ne_of_gt (by linarith)
      field_simp
      ring

theorem transform_roundtrip_vec (x : Vec) (bt : List BoundKind)
    (lb ub : List FP) (h : InBounds x bt lb ub) :
    inv_transform (transform x bt lb ub) bt lb ub = x := by
  induction x generalizing bt lb ub with
  | nil =>
      cases bt with
      | nil =>
          cases lb with
          | nil =>
              cases ub with
              | nil => rfl
              | cons u us => exact absurd h (by simp [InBounds])
          | cons l ls => exact absurd h (by simp [InBounds])
      | cons k ks => exact absurd h (by simp [InBounds])
  | cons a xs ih =>
      cases bt with
      | nil => exact absurd h (by simp [InBounds])
      | cons k ks =>
          cases lb with
          | nil => exact absurd h (by simp [InBounds])
          | cons l ls =>
              cases ub with
              | nil => exact absurd h (by simp [InBounds])
              | cons u us =>
                  obtain ⟨h1, h2⟩ := h
                  simp only [transform, inv_transform]
                  rw [transform_coord_roundtrip k _ _ a h1, ih ks ls us h2]

theorem zeroVec_ne_nil (n : ℕ) (hn : 0 < n) : zeroVec n ≠ [] := by
  cases n with
  | zero => exact absurd hn (by norm_num)
  | succ m => simp [zeroVec, List.replicate]

theorem gd_loop_zero (gtol rtol : ℝ) (im : ℕ) (step : LoopState → LoopState)
    (s : LoopState) : gd_loop gtol rtol im step 0 s = s := rfl

theorem gd_loop_succ (gtol rtol : ℝ) (im : ℕ) (step : LoopState → LoopState)
    (fuel : ℕ) (s : LoopState) :
    gd_loop gtol rtol im step (fuel + 1) s =
      if loop_guard gtol rtol im s then gd_loop gtol rtol im step fuel (step s)
      else s := rfl

theorem gd_loop_stop (gtol rtol : ℝ) (im : ℕ) (step : LoopState → LoopState)
    (fuel : ℕ) (s : LoopState) (h : ¬ loop_guard gtol rtol im s) :
    gd_loop gtol rtol im step fuel s = s := by
  cases fuel with
  | zero => rfl
  | succ m => rw [gd_loop_succ, if_neg h]

theorem gd_step_iter (boxfn : BoxFn) (upd : UpdateFn) (gs : gd_settings_t)
    (s : LoopState) : (gd_step boxfn upd gs s).iter = s.iter + 1 := rfl

theorem gd_loop_iter_le (gtol rtol : ℝ) (im : ℕ)
    (step : LoopState → LoopState)
    (hstep : ∀ s, (step s).iter = s.iter + 1) :
    ∀ (fuel : ℕ) (s : LoopState),
      (gd_loop gtol rtol im step fuel s).iter ≤ max s.iter im := by
  intro fuel
  induction fuel with
  | zero => intro s; exact le_max_left _ _
  | succ m ih =>
      intro s
      by_cases h : loop_guard gtol rtol im s
      · rw [gd_loop_succ, if_pos h]
        refine le_trans (ih (step s)) ?_
        have h3 : s.iter < im := h.2.2
        have h4 : (step s).iter = s.iter + 1 := hstep s
        have h5 : max (step s).iter im = im := by
          rw [h4]; exact max_eq_right h3
        rw [h5]
        exact le_max_right _ _
      · rw [gd_loop_succ, if_neg h]
        exact le_max_left _ _

theorem gd_loop_fuel_stable (gtol rtol : ℝ) (im : ℕ)
    (step : LoopState → LoopState)
    (hstep : ∀ s, (step s).iter = s.iter + 1) :
    ∀ (fuel : ℕ) (s : LoopState), im ≤ fuel + s.iter →
      gd_loop gtol rtol im step fuel s = gd_loop gtol rtol im step (fuel + 1) s := by
  intro fuel
  induction fuel with
  | zero =>
      intro s h
      have hng : ¬ loop_guard gtol rtol im s := by
        intro hg
        have := hg.2.2
        omega
      rw [gd_loop_stop _ _ _ _ _ _ hng, gd_loop_stop _ _ _ _ _ _ hng]
  | succ m ih =>
      intro s h
      by_cases hg : loop_guard gtol rtol im s
      · rw [gd_loop_succ, if_pos hg, gd_loop_succ _ _ _ _ (m + 1), if_pos hg]
        refine ih (step s) ?_
        have := hstep s
        omega
      · rw [gd_loop_stop _ _ _ _ _ _ hg, gd_loop_stop _ _ _ _ _ _ hg]

theorem sum_map_sq_mul (v : Vec) (c : ℝ) :
    ((v.map fun a => a * c).map fun a => a ^ 2).sum =
      c ^ 2 * (v.map fun a => a ^ 2).sum := by
  induction v with
  | nil => simp
  | cons a t ih =>
      simp only [List.map_cons, List.sum_cons, ih]
      ring

theorem l2norm_map_mul (v : Vec) (c : ℝ) :
    l2norm (v.map fun a => a * c) = |c| * l2norm v := by
  unfold l2norm
  rw [sum_map_sq_mul, Real.sqrt_mul (sq_nonneg c), Real.sqrt_sq_eq_abs]

theorem linfnorm_le_of_forall (v : Vec) (B : ℝ) (hB : 0 ≤ B)
    (h : ∀ a ∈ v, |a| ≤ B) : linfnorm v ≤ B := by
  induction v with
  | nil => simpa [linfnorm] using hB
  | cons a t ih =>
      have h1 : |a| ≤ B := h a (by simp)
      have h2 : linfnorm t ≤ B := ih fun b hb => h b (by simp [hb])
      simpa [linfnorm] using max_le h1 h2

theorem init_adam_vec_m_ne_nil_iff (method n : ℕ) (hn : 0 < n) :
    init_adam_vec_m method n ≠ [] ↔
      (method = 5 ∨ method = 6 ∨ method = 7) := by
  unfold init_adam_vec_m
  by_cases h : method = 5 ∨ method = 6 ∨ method = 7
  · simp [h, zeroVec_ne_nil n hn]
  · simp [h]

theorem init_adam_vec_v_ne_nil_iff (method n : ℕ) (hn : 0 < n) :
    init_adam_vec_v method n ≠ [] ↔
      (method = 3 ∨ method = 4 ∨ method = 5 ∨ method = 6 ∨ method = 7) := by
  unfold init_adam_vec_v
  by_cases h : method = 3 ∨ method = 4 ∨ method = 5 ∨ method = 6 ∨ method = 7
  · simp [h, zeroVec_ne_nil n hn]
  · simp [h]

/-- C4: the Objective Adapter delegates directly to the caller objective when
bounds are inactive; when bounds are active it evaluates the caller objective
at the inverse-transformed input, returns the objective value unchanged, and,
when a gradient is requested, replaces the returned gradient by its Hadamard
product with the Jacobian diagonal at the working-space input point. -/
theorem box_objfn_spec (objfn : Vec → ℝ × Vec) (bt : List BoundKind)
    (lb ub : List FP) (v : Vec) :
    (∀ g : Bool, box_objfn objfn false bt lb ub v g =
      ((objfn v).1, if g then some (objfn v).2 else none)) ∧
    ((box_objfn objfn true bt lb ub v true).1 =
      (objfn (inv_transform v bt lb ub)).1) ∧
    ((box_objfn objfn true bt lb ub v true).2 =
      some (hadamard (jacobian_diag v bt lb ub)
        (objfn (inv_transform v bt lb ub)).2)) ∧
    (box_objfn objfn true bt lb ub v false =
      ((objfn (inv_transform v bt lb ub)).1, none)) := by
  refine ⟨fun g => ?_, ?_, ?_, ?_⟩ <;> simp [box_objfn]

/-- C5: for every bound-kind classification and every value strictly inside
the configured bounds, inv_transform undoes transform, coordinate-wise and
vector-wise; in particular, when the loop leaves the working point at the
transformed starting point, the final inverse transform of the driver
returns exactly the starting point. -/
theorem transform_roundtrip_spec :
    (∀ (k : BoundKind) (lb ub x : ℝ), in_bounds_coord k lb ub x →
      inv_transform_coord k lb ub (transform_coord k lb ub x) = x) ∧
    (∀ (x : Vec) (bt : List BoundKind) (lb ub : List FP),
      InBounds x bt lb ub → inv_transform (transform x bt lb ub) bt lb ub = x) ∧
    (∀ (init : List FP) (objfn : Vec → ℝ × Vec) (upd : UpdateFn)
        (settings : algo_settings_t),
      settings.vals_bound = true →
      InBounds (extractFinite init) (gd_bounds_type init settings)
        settings.lower_bounds settings.upper_bounds →
      (gd_final_state init objfn upd settings).x = gd_init_x init settings →
      gd_final_x init objfn upd settings = extractFinite init) := by
  refine ⟨transform_coord_roundtrip, transform_roundtrip_vec, ?_⟩
  intro init objfn upd settings hb hin hx
  unfold gd_final_x
  rw [if_pos hb, hx]
  unfold gd_init_x
  rw [if_pos hb]
  exact transform_roundtrip_vec _ _ _ _ hin

/-- C6: in an iteration the gradient clipping is applied, once, to the
post-step gradient exactly when the clipping flag is enabled; with the flag
disabled the gradient is left unmodified, and the clipped gradient never
exceeds the configured threshold in the configured magnitude measure. -/
theorem gradient_clipping_spec (boxfn : BoxFn) (upd : UpdateFn)
    (gs : gd_settings_t) (s : LoopState) :
    (gs.clip_grad = false →
      (gd_step boxfn upd gs s).grad_p = gd_step_raw_grad boxfn upd gs s) ∧
    (gs.clip_grad = true →
      (gd_step boxfn upd gs s).grad_p =
        gradient_clipping (gd_step_raw_grad boxfn upd gs s) gs) ∧
    (∀ g : Vec, 0 ≤ gs.clip_bound →
      clip_measure gs.clip_type (gradient_clipping g gs) ≤ gs.clip_bound) := by
  refine ⟨fun h => by simp [gd_step, h], fun h => by simp [gd_step, h], ?_⟩
  intro g hB
  cases hct : gs.clip_type with
  | overallNorm =>
      simp only [clip_measure, gradient_clipping, hct]
      by_cases hb : gs.clip_bound < l2norm g
      · rw [if_pos hb, l2norm_map_mul]
        have hn : 0 < l2norm g := lt_of_le_of_lt hB hb
        have habs : |gs.clip_bound / l2norm g| = gs.clip_bound / l2norm g :=
          abs_of_nonneg (div_nonneg hB (le_of_lt hn))
        rw [habs, div_mul_cancel₀ _ (ne_of_gt hn)]
      · rw [if_neg hb]
        exact le_of_not_lt hb
  | coordMax =>
      simp only [clip_measure, gradient_clipping, hct]
      refine linfnorm_le_of_forall _ _ hB ?_
      intro a ha
      obtain ⟨b, _, hba⟩ := List.mem_map.mp ha
      rw [← hba]
      refine abs_le.mpr ⟨le_max_left _ _, max_le (by linarith) (min_le_left _ _)⟩

/-- C7: the relative solution change of an iteration is the L1 norm of the
elementwise quotient of the step by the absolute old point plus 1.0e-8, and
every such denominator is strictly positive, so the computation never
divides by zero. -/
theorem rel_sol_change_spec (boxfn : BoxFn) (upd : UpdateFn)
    (gs : gd_settings_t) (s : LoopState) :
    (gd_step boxfn upd gs s).rel_sol_change =
      l1norm (List.zipWith (fun dx xo => dx / (|xo| + 1.0e-8))
        (vsub (gd_step_xp boxfn upd gs s) s.x) s.x) ∧
    (∀ xo : ℝ, 0 < |xo| + 1.0e-8) := by
  refine ⟨rfl, ?_⟩
  intro xo
  have h1 : (0 : ℝ) ≤ |xo| := abs_nonneg xo
  have h2 : (0 : ℝ) < 1.0e-8 := by norm_num
  linarith

/-- C8: at run initialization the first-moment accumulator and the
second-moment accumulator are allocated as zero vectors of the problem
dimension exactly for method codes 5, 6, 7; the second-moment accumulator
alone exactly for method codes 3, 4; for all other codes neither is
allocated; whenever present an accumulator has the dimension of the
position vector, and the loop starts from exactly these allocations. -/
theorem adam_alloc_spec (method n : ℕ) (hn : 0 < n) :
    ((init_adam_vec_m method n ≠ [] ∧ init_adam_vec_v method n ≠ []) ↔
      (method = 5 ∨ method = 6 ∨ method = 7)) ∧
    ((init_adam_vec_m method n = [] ∧ init_adam_vec_v method n ≠ []) ↔
      (method = 3 ∨ method = 4)) ∧
    ((method ≠ 3 ∧ method ≠ 4 ∧ method ≠ 5 ∧ method ≠ 6 ∧ method ≠ 7) →
      init_adam_vec_m method n = [] ∧ init_adam_vec_v method n = []) ∧
    (init_adam_vec_m method n ≠ [] →
      init_adam_vec_m method n = zeroVec n ∧
        (init_adam_vec_m method n).length = n) ∧
    (init_adam_vec_v method n ≠ [] →
      init_adam_vec_v method n = zeroVec n ∧
        (init_adam_vec_v method n).length = n) ∧
    (∀ (init : List FP) (objfn : Vec → ℝ × Vec) (settings : algo_settings_t),
      (gd_init_state init objfn settings).adam_vec_m =
        init_adam_vec_m settings.gd_settings.method init.length ∧
      (gd_init_state init objfn settings).adam_vec_v =
        init_adam_vec_v settings.gd_settings.method init.length ∧
      (extractFinite init).length = init.length) := by
  have hm := init_adam_vec_m_ne_nil_iff method n hn
  have hv := init_adam_vec_v_ne_nil_iff method n hn
  refine ⟨?_, ?_, ?_, ?_, ?_, ?_⟩
  · constructor
    · intro ⟨h1, _⟩
      exact hm.mp h1
    · intro h
      exact ⟨hm.mpr h, hv.mpr (by tauto)⟩
  · constructor
    · intro ⟨h1, h2⟩
      have h3 := hv.mp h2
      have h4 : ¬ (method = 5 ∨ method = 6 ∨ method = 7) := fun hc =>
        (hm.mpr hc) h1
      tauto
    · intro h
      refine ⟨?_, hv.mpr (by tauto)⟩
      by_contra hc
      have := hm.mp hc
      rcases h with h | h <;> subst h <;> omega
  · intro h
    constructor
    · by_contra hc
      have := hm.mp hc
      tauto
    · by_contra hc
      have := hv.mp hc
      tauto
  · intro h
    have hc := hm.mp h
    unfold init_adam_vec_m
    rw [if_pos hc]
    exact ⟨rfl, by simp [zeroVec]⟩
  · intro h
    have hc := hv.mp h
    unfold init_adam_vec_v
    rw [if_pos hc]
    exact ⟨rfl, by simp [zeroVec]⟩
  · intro init objfn settings
    exact ⟨rfl, rfl, by simp [extractFinite]⟩

/-- C9: the gradient-norm value an iteration stores for the loop guard and
the final reporting is the L2 norm of the post-clip gradient: with clipping
enabled it equals the L2 norm of the clipped gradient, not of the raw
gradient the objective returned, and the loop guard reads exactly this
value. -/
theorem grad_err_postclip_spec (boxfn : BoxFn) (upd : UpdateFn)
    (gs : gd_settings_t) (s : LoopState) :
    ((gd_step boxfn upd gs s).grad_err =
      l2norm ((gd_step boxfn upd gs s).grad_p)) ∧
    (gs.clip_grad = true →
      (gd_step boxfn upd gs s).grad_err =
        l2norm (gradient_clipping (gd_step_raw_grad boxfn upd gs s) gs)) ∧
    (∀ (gtol rtol : ℝ) (im : ℕ),
      loop_guard gtol rtol im (gd_step boxfn upd gs s) ↔
        (gtol < l2norm ((gd_step boxfn upd gs s).grad_p) ∧
         rtol < (gd_step boxfn upd gs s).rel_sol_change ∧
         (gd_step boxfn upd gs s).iter < im)) := by
  refine ⟨rfl, fun h => by simp [gd_step, h], ?_⟩
  intro gtol rtol im
  unfold loop_guard
  constructor
  · intro ⟨h1, h2, h3⟩
    exact ⟨h1, h2, h3⟩
  · intro ⟨h1, h2, h3⟩
    exact ⟨h1, h2, h3⟩

/-- C1: the driver loop runs a further iteration exactly when the gradient
norm still exceeds grad_err_tol, the relative solution change still exceeds
rel_sol_change_tol and the iteration count is still below iter_max; the fuel
bound of the embedding is never the limiting factor, at most iter_max update
steps are ever performed, and with iter_max zero and an initial gradient
norm above tolerance zero update steps are performed. -/
theorem gd_loop_guard_spec (gtol rtol : ℝ) (im : ℕ) (boxfn : BoxFn)
    (upd : UpdateFn) (gs : gd_settings_t) (fuel : ℕ) (s : LoopState) :
    (loop_guard gtol rtol im s →
      gd_loop gtol rtol im (gd_step boxfn upd gs) (fuel + 1) s =
        gd_loop gtol rtol im (gd_step boxfn upd gs) fuel
          (gd_step boxfn upd gs s)) ∧
    (¬ loop_guard gtol rtol im s →
      gd_loop gtol rtol im (gd_step boxfn upd gs) fuel s = s) ∧
    (im ≤ fuel + s.iter →
      gd_loop gtol rtol im (gd_step boxfn upd gs) fuel s =
        gd_loop gtol rtol im (gd_step boxfn upd gs) (fuel + 1) s) ∧
    ((gd_loop gtol rtol im (gd_step boxfn upd gs) fuel s).iter ≤
      max s.iter im) ∧
    (∀ (init : List FP) (objfn : Vec → ℝ × Vec) (settings : algo_settings_t),
      (gd_basic_impl init objfn upd settings).iters ≤ settings.iter_max ∧
      (settings.iter_max = 0 ∧
          settings.grad_err_tol < l2norm (gd_initial_grad init objfn settings) →
        (gd_basic_impl init objfn upd settings).iters = 0)) := by
  refine ⟨?_, ?_, ?_, ?_, ?_⟩
  · intro h
    rw [gd_loop_succ, if_pos h]
  · intro h
    exact gd_loop_stop _ _ _ _ _ _ h
  · exact gd_loop_fuel_stable gtol rtol im _ (gd_step_iter boxfn upd gs) fuel s
  · exact gd_loop_iter_le gtol rtol im _ (gd_step_iter boxfn upd gs) fuel s
  · intro init objfn settings
    have hfin : (gd_final_state init objfn upd settings).iter ≤
        settings.iter_max := by
      have h0 : (gd_init_state init objfn settings).iter = 0 := rfl
      have := gd_loop_iter_le settings.grad_err_tol
        settings.rel_sol_change_tol settings.iter_max
        (gd_step (gd_boxfn init objfn settings) upd settings.gd_settings)
        (gd_step_iter _ upd settings.gd_settings) settings.iter_max
        (gd_init_state init objfn settings)
      unfold gd_final_state
      rw [h0] at this
      simpa using this
    constructor
    · unfold gd_basic_impl
      by_cases h1 : allFinite init = false
      · rw [if_pos h1]
        exact Nat.zero_le _
      · rw [if_neg h1]
        by_cases h2 : l2norm (gd_initial_grad init objfn settings) ≤
            settings.grad_err_tol
        · rw [if_pos h2]
          exact Nat.zero_le _
        · rw [if_neg h2]
          exact hfin
    · intro ⟨hz, _⟩
      unfold gd_basic_impl
      by_cases h1 : allFinite init = false
      · rw [if_pos h1]
      · rw [if_neg h1]
        by_cases h2 : l2norm (gd_initial_grad init objfn settings) ≤
            settings.grad_err_tol
        · rw [if_pos h2]
        · rw [if_neg h2]
          show (gd_final_state init objfn upd settings).iter = 0
          omega

/-- C2: for an initial vector with a non-finite entry the driver returns
false with the caller vector unchanged, performs no iteration and issues no
objective evaluation, and its outcome does not depend on the objective or
the update rule at all. -/
theorem gd_nonfinite_init_spec (init : List FP) (objfn : Vec → ℝ × Vec)
    (upd : UpdateFn) (settings : algo_settings_t)
    (h : allFinite init = false) :
    gd_basic_impl init objfn upd settings =
      { success := false, out := init, iters := 0, obj_evals := 0 } ∧
    (∀ (objfn2 : Vec → ℝ × Vec) (upd2 : UpdateFn),
      gd_basic_impl init objfn2 upd2 settings =
        gd_basic_impl init objfn upd settings) := by
  constructor
  · unfold gd_basic_impl
    rw [if_pos h]
  · intro objfn2 upd2
    unfold gd_basic_impl
    rw [if_pos h, if_pos h]

/-- C3: for a finite initial point whose initial gradient, computed once
through the Objective Adapter at the possibly-transformed starting point, has
L2 norm at most grad_err_tol, the driver returns true immediately, with zero
iterations performed, one objective evaluation issued and the caller vector
unchanged. -/
theorem gd_zero_iter_success_spec (init : List FP) (objfn : Vec → ℝ × Vec)
    (upd : UpdateFn) (settings : algo_settings_t)
    (hfin : allFinite init = true)
    (hgrad : l2norm (gd_initial_grad init objfn settings) ≤
      settings.grad_err_tol) :
    gd_basic_impl init objfn upd settings =
      { success := true, out := init, iters := 0, obj_evals := 1 } := by
  unfold gd_basic_impl
  rw [if_neg (by simp [hfin]), if_pos hgrad]

/-- C10: on the non-finite-initial-point failure path and on the
zero-iteration immediate success path the caller vector is returned exactly
as passed; only on the path through the loop is the result vector produced,
and there it is exactly the output of the error_reporting call on the final
state. -/
theorem out_vals_frame_spec (init : List FP) (objfn : Vec → ℝ × Vec)
    (upd : UpdateFn) (settings : algo_settings_t) :
    (allFinite init = false →
      (gd_basic_impl init objfn upd settings).out = init) ∧
    (allFinite init = true →
      l2norm (gd_initial_grad init objfn settings) ≤ settings.grad_err_tol →
      (gd_basic_impl init objfn upd settings).out = init) ∧
    (allFinite init = true →
      settings.grad_err_tol < l2norm (gd_initial_grad init objfn settings) →
      (gd_basic_impl init objfn upd settings).out =
        (error_reporting (gd_final_x init objfn upd settings)
          (gd_final_state init objfn upd settings).grad_err
          settings.grad_err_tol
          (gd_final_state init objfn upd settings).iter
          settings.iter_max settings.conv_failure_switch).2) := by
  refine ⟨?_, ?_, ?_⟩
  · intro h
    unfold gd_basic_impl
    rw [if_pos h]
  · intro h1 h2
    unfold gd_basic_impl
    rw [if_neg (by simp [h1]), if_pos h2]
  · intro h1 h2
    unfold gd_basic_impl
    rw [if_neg (by simp [h1]), if_neg (not_le.mpr h2)]

theorem gd_loop_guard_spec_witness :
    loop_guard (1 / 2) (1 / 2) 5 exState ∧
    gd_loop (1 / 2) (1 / 2) 5 (gd_step exBox exUpd exGs) 3 exState =
      gd_loop (1 / 2) (1 / 2) 5 (gd_step exBox exUpd exGs) 2
        (gd_step exBox exUpd exGs exState) := by
  have hg : loop_guard (1 / 2) (1 / 2) 5 exState := by
    refine ⟨?_, ?_, ?_⟩ <;> norm_num [exState]
  exact ⟨hg, (gd_loop_guard_spec (1 / 2) (1 / 2) 5 exBox exUpd exGs 2 exState).1 hg⟩

theorem gd_nonfinite_init_spec_witness :
    allFinite [(none : FP)] = false ∧
    gd_basic_impl [(none : FP)] exObjZ exUpd exSettings =
      { success := false, out := [(none : FP)], iters := 0, obj_evals := 0 } := by
  exact ⟨rfl, (gd_nonfinite_init_spec [(none : FP)] exObjZ exUpd exSettings rfl).1⟩

theorem gd_zero_iter_success_spec_witness :
    allFinite [(some (0 : ℝ) : FP)] = true ∧
    l2norm (gd_initial_grad [(some (0 : ℝ) : FP)] exObjZ exSettings) ≤
      exSettings.grad_err_tol ∧
    gd_basic_impl [(some (0 : ℝ) : FP)] exObjZ exUpd exSettings =
      { success := true, out := [(some (0 : ℝ) : FP)], iters := 0,
        obj_evals := 1 } := by
  have h2 : l2norm (gd_initial_grad [(some (0 : ℝ) : FP)] exObjZ exSettings) ≤
      exSettings.grad_err_tol := by
    have hg : gd_initial_grad [(some (0 : ℝ) : FP)] exObjZ exSettings =
        [(0 : ℝ)] := by
      simp [gd_initial_grad, gd_boxfn, gd_init_x, gd_bounds_type, box_objfn,
        extractFinite, exObjZ, exSettings, determine_bounds_type]
    rw [hg]
    show Real.sqrt _ ≤ _
    norm_num [exSettings, Real.sqrt_zero]
  exact ⟨rfl, h2,
    gd_zero_iter_success_spec [(some (0 : ℝ) : FP)] exObjZ exUpd exSettings rfl h2⟩

theorem box_objfn_spec_witness :
    box_objfn exObjZ false [] [] [] [(3 : ℝ)] true =
      ((exObjZ [(3 : ℝ)]).1, some (exObjZ [(3 : ℝ)]).2) := by
  have h := (box_objfn_spec exObjZ [] [] [] [(3 : ℝ)]).1 true
  simpa using h

theorem transform_roundtrip_spec_witness :
    in_bounds_coord BoundKind.both 0 1 (1 / 2) ∧
    inv_transform_coord BoundKind.both 0 1
      (transform_coord BoundKind.both 0 1 (1 / 2)) = 1 / 2 := by
  have h : in_bounds_coord BoundKind.both 0 1 (1 / 2) :=
    ⟨by norm_num, by norm_num⟩
  exact ⟨h, transform_roundtrip_spec.1 BoundKind.both 0 1 (1 / 2) h⟩

theorem gradient_clipping_spec_witness :
    ((gd_step exBox exUpd exGs exState).grad_p =
      gd_step_raw_grad exBox exUpd exGs exState) ∧
    (0 : ℝ) ≤ exGsClip.clip_bound ∧
    clip_measure exGsClip.clip_type (gradient_clipping [(5 : ℝ)] exGsClip) ≤
      exGsClip.clip_bound := by
  exact ⟨(gradient_clipping_spec exBox exUpd exGs exState).1 rfl,
    by norm_num [exGsClip],
    (gradient_clipping_spec exBox exUpd exGsClip exState).2.2 [(5 : ℝ)]
      (by norm_num [exGsClip])⟩

theorem rel_sol_change_spec_witness :
    ((gd_step exBox exUpd exGs exState).rel_sol_change =
      l1norm (List.zipWith (fun dx xo => dx / (|xo| + 1.0e-8))
        (vsub (gd_step_xp exBox exUpd exGs exState) exState.x) exState.x)) ∧
    (0 : ℝ) < |(-2 : ℝ)| + 1.0e-8 := by
  exact ⟨(rel_sol_change_spec exBox exUpd exGs exState).1,
    (rel_sol_change_spec exBox exUpd exGs exState).2 (-2)⟩

theorem adam_alloc_spec_witness :
    (0 : ℕ) < 2 ∧
    (init_adam_vec_m 5 2 ≠ [] ∧ init_adam_vec_v 5 2 ≠ []) := by
  exact ⟨by norm_num, (adam_alloc_spec 5 2 (by norm_num)).1.mpr (Or.inl rfl)⟩

theorem grad_err_postclip_spec_witness :
    (gd_step exBox exUpd exGsClip exState).grad_err =
      l2norm (gradient_clipping
        (gd_step_raw_grad exBox exUpd exGsClip exState) exGsClip) := by
  exact (grad_err_postclip_spec exBox exUpd exGsClip exState).2.1 rfl

theorem out_vals_frame_spec_witness :
    allFinite [(none : FP)] = false ∧
    (gd_basic_impl [(none : FP)] exObjZ exUpd exSettings).out = [(none : FP)] ∧
    (gd_basic_impl [(some (0 : ℝ) : FP)] exObjT exUpd exSettings).out =
      (error_reporting
        (gd_final_x [(some (0 : ℝ) : FP)] exObjT exUpd exSettings)
        (gd_final_state [(some (0 : ℝ) : FP)] exObjT exUpd exSettings).grad_err
        exSettings.grad_err_tol
        (gd_final_state [(some (0 : ℝ) : FP)] exObjT exUpd exSettings).iter
        exSettings.iter_max exSettings.conv_failure_switch).2 := by
  refine ⟨rfl,
    (out_vals_frame_spec [(none : FP)] exObjZ exUpd exSettings).1 rfl, ?_⟩
  have h2 : exSettings.grad_err_tol <
      l2norm (gd_initial_grad [(some (0 : ℝ) : FP)] exObjT exSettings) := by
    have hg : gd_initial_grad [(some (0 : ℝ) : FP)] exObjT exSettings =
        [(2 : ℝ)] := by
      simp [gd_initial_grad, gd_boxfn, gd_init_x, gd_bounds_type, box_objfn,
        extractFinite, exObjT, exSettings, determine_bounds_type]
    rw [hg]
    have hs : l2norm [(2 : ℝ)] = 2 := by
      show Real.sqrt _ = _
      rw [show (List.map (fun a => a ^ 2) [(2 : ℝ)]).sum = 2 ^ 2 by norm_num]
      exact Real.sqrt_sq (by norm_num)
    rw [hs]
    norm_num [exSettings]
  exact (out_vals_frame_spec [(some (0 : ℝ) : FP)] exObjT exUpd
    exSettings).2.2 rfl h2

end Optim
